import Mathlib

/-!
Verification of the binanceweb3 backend (Rust) against its natural-language
specification.  Rust strings are shallowly embedded as `List Char`, `f64`
prices and volumes as `ℚ`, `i64` timestamps as `ℤ`, and the concurrent maps
(DashMap) as association lists where an insert prepends and thereby shadows
the previous binding.  Every definition is translated from the repository
sources; the file and line of the source appear in each doc comment.
-/

namespace BinanceWeb3

/-- Rust strings, embedded as their character lists. -/
abbrev RStr := List Char

/-- Model of Rust `str::to_lowercase` (addresses in this codebase are ASCII). -/
def to_lowercase (s : RStr) : RStr := s.map Char.toLower

/-- `socket_handlers.rs` lines 37-43: EVM addresses are lowercased, Solana
(pool_id 16) addresses keep their case. -/
def normalize_address (pool_id : Int) (address : RStr) : RStr :=
  if pool_id = 16 then address else to_lowercase address

/-- A candle, `types::KlineTick`: time in milliseconds, OHLCV in exact
rationals standing for the `f64` fields. -/
structure KlineTick where
  time : Int
  open_ : ℚ
  high : ℚ
  low : ℚ
  close : ℚ
  volume : ℚ
  deriving DecidableEq, Repr

instance : Inhabited KlineTick := ⟨⟨0, 0, 0, 0, 0, 0⟩⟩

/-- `token_manager.rs` line 32. -/
def LOW_VOLUME_PRICE_DEVIATION_THRESHOLD : ℚ := 2

/-- `token_manager.rs` line 33. -/
def LOW_VOLUME_THRESHOLD : ℚ := 10

/-- `token_manager.rs` lines 306-322, the body run for one room when a tick
arrives and the room has a current candle `k`.  Returns the room candle after
the tick together with `true` when a `kline_update` is broadcast for the
room, `false` when the tick was dropped by the spike filter (`continue`). -/
def apply_tick_to_room (price usd_volume : ℚ) (k : KlineTick) : KlineTick × Bool :=
  let ratio : ℚ := if price > k.close then price / k.close else k.close / price
  if k.close > 0 ∧ ratio > LOW_VOLUME_PRICE_DEVIATION_THRESHOLD ∧
      usd_volume < LOW_VOLUME_THRESHOLD then
    (k, false)
  else
    ({ k with high := max k.high price, low := min k.low price, close := price }, true)

/-! ### Token worker command handling, `token_manager.rs` -/

/-- Rust `str::starts_with`. -/
def rstr_starts_with (s pat : RStr) : Bool := pat.isPrefixOf s

/-- Rust `str::split(sep)` collected into a vector of pieces. -/
def split_on_char (sep : Char) : RStr → List RStr
  | [] => [[]]
  | c :: rest =>
    match split_on_char sep rest with
    | [] => [[c]]
    | h :: t => if c = sep then [] :: h :: t else (c :: h) :: t

/-- `state.rs`: commands accepted by a token worker. -/
inductive SubscriptionCommand where
  | Subscribe (raw_stream : RStr)
  | Unsubscribe (raw_stream : RStr)
  deriving DecidableEq, Repr

/-- Frames the worker writes to the upstream socket
(`send_subscribe` / `send_unsubscribe`, `token_manager.rs` lines 222-241). -/
inductive WsOut where
  | SUBSCRIBE (params : List RStr)
  | UNSUBSCRIBE (params : List RStr)
  deriving DecidableEq, Repr

/-- The per-worker mutable state threaded through `connect_and_serve`
(`token_manager.rs` lines 49-50). -/
structure WorkerState where
  active_intervals : List RStr
  is_tick_subscribed : Bool
  deriving DecidableEq, Repr

/-- `token_manager.rs` lines 149-197: the command arm of the worker event
loop.  Returns the new worker state, the frames sent upstream, and whether
the worker exits.  Note the source splits a kline stream on the `'@'`
character when subscribing but on `'_'` when unsubscribing. -/
def handle_worker_command (st : WorkerState) :
    SubscriptionCommand → WorkerState × List WsOut × Bool
  | .Subscribe raw_stream =>
    if rstr_starts_with raw_stream ("tx@").data then
      if !st.is_tick_subscribed then
        ({ st with is_tick_subscribed := true }, [.SUBSCRIBE [raw_stream]], false)
      else (st, [], false)
    else if rstr_starts_with raw_stream ("kl@").data then
      match (split_on_char '@' raw_stream).getLast? with
      | some interval =>
        if st.active_intervals.contains interval then (st, [], false)
        else ({ st with active_intervals := interval :: st.active_intervals },
              [.SUBSCRIBE [raw_stream]], false)
      | none => (st, [], false)
    else if raw_stream = ("SHUTDOWN").data then (st, [], true)
    else (st, [], false)
  | .Unsubscribe raw_stream =>
    let step :=
      if rstr_starts_with raw_stream ("tx@").data then
        if st.is_tick_subscribed then
          ({ st with is_tick_subscribed := false }, [WsOut.UNSUBSCRIBE [raw_stream]])
        else (st, ([] : List WsOut))
      else if rstr_starts_with raw_stream ("kl@").data then
        match (split_on_char '_' raw_stream).getLast? with
        | some interval =>
          if st.active_intervals.contains interval then
            ({ st with active_intervals :=
                st.active_intervals.filter (fun i => i != interval) },
             [WsOut.UNSUBSCRIBE [raw_stream]])
          else (st, [])
        | none => (st, [])
      else (st, [])
    (step.1, step.2, !step.1.is_tick_subscribed && step.1.active_intervals.isEmpty)

/-- The kline stream sent by `register_kline_subscribe_handler` /
`register_kline_unsubscribe_handler` for address 0xabc on bsc with
interval 1m (`socket_handlers.rs` lines 170 and 217). -/
def c3_kl_stream : RStr := ("kl@14@0xabc@1m").data

/-- Worker state after the subscribe command for `c3_kl_stream`. -/
def c3_after_sub : WorkerState × List WsOut × Bool :=
  handle_worker_command ⟨[], false⟩ (.Subscribe c3_kl_stream)

/-- Worker state after the matching unsubscribe command. -/
def c3_after_unsub : WorkerState × List WsOut × Bool :=
  handle_worker_command c3_after_sub.1 (.Unsubscribe c3_kl_stream)

/-! ### Lazy tick unsubscribe, `socket_handlers.rs` lines 83-105 -/

/-- Remove a key from an association-list map (DashMap `remove`). -/
def remove_key (k : RStr) (m : List (RStr × List RStr)) : List (RStr × List RStr) :=
  m.filter (fun p => p.1 != k)

/-- `schedule_lazy_tick_unsubscribe`, the body run when the timer fires
(`socket_handlers.rs` lines 86-104).  `room_index` is the address to
room-set index, `token_managers` the set of addresses having a worker
command channel.  Returns whether an `Unsubscribe(tx stream)` command is
sent to a worker, and the index afterwards.  The source lowercases the
address before every lookup. -/
def lazy_tick_unsubscribe_fire (room_index : List (RStr × List RStr))
    (token_managers : List RStr) (address : RStr) :
    Bool × List (RStr × List RStr) :=
  let address_lower := to_lowercase address
  let should_really_unsub :=
    match room_index.lookup address_lower with
    | some entry => entry.isEmpty
    | none => true
  if should_really_unsub then
    (token_managers.contains address_lower, remove_key address_lower room_index)
  else
    (false, room_index)

/-- A Solana address (pool_id 16, case preserved by `normalize_address`)
containing an upper-case letter. -/
def c6_address : RStr := ("Abc").data

/-- Index state at timer fire: the last room for the address was removed, so
the entry holds the empty set (`handle_index_unsubscription`,
`socket_handlers.rs` lines 75-81, removes the room but keeps the key). -/
def c6_room_index : List (RStr × List RStr) := [(c6_address, [])]

/-- The worker registry still holds the worker, keyed by the normalized
(case-preserved) address. -/
def c6_token_managers : List RStr := [c6_address]

/-- Result of the lazy-unsubscribe timer firing for `c6_address`. -/
def c6_fire : Bool × List (RStr × List RStr) :=
  lazy_tick_unsubscribe_fire c6_room_index c6_token_managers c6_address

/-! ### Hotlist filtering, `socket_handlers.rs` lines 285-308 -/

/-- `socket_handlers.rs` line 21. -/
def MIN_HOTLIST_AMOUNT : ℚ := 10000

/-- `types::HotlistItem` restricted to the fields the verified handlers
read; `create_time` is optional as the retain closure in
`socket_handlers.rs` line 291 pattern-matches it against `Some`/`None`. -/
structure HotlistItem where
  chain : RStr
  contract_address : RStr
  symbol : RStr
  price : Option ℚ
  volume24h : Option ℚ
  create_time : Option Int
  deriving DecidableEq, Repr

/-- The retain closure of the hotlist arm of `register_data_update_handler`
(`socket_handlers.rs` lines 287-295).  The `thirty_mins_ms` constant of the
source is actually sixty minutes in milliseconds. -/
def hotlist_retain (now : Int) (item : HotlistItem) : Bool :=
  let thirty_mins_ms : Int := 60 * 60 * 1000
  let amount_ok : Bool :=
    decide (item.volume24h.getD 0 * item.price.getD 0 ≥ MIN_HOTLIST_AMOUNT)
  let time_ok : Bool :=
    match item.create_time with
    | some ct => decide (now - ct ≥ thirty_mins_ms)
    | none => true
  amount_ok && time_ok

/-- `data.retain(..)` on the inbound hotlist payload. -/
def hotlist_filter (now : Int) (data : List HotlistItem) : List HotlistItem :=
  data.filter (hotlist_retain now)

/-- A hotlist item above the notional threshold but created at the same
millisecond as the snapshot. -/
def c7_item : HotlistItem :=
  { chain := ("bsc").data, contract_address := ("0xa").data, symbol := ("T").data,
    price := some 1, volume24h := some 20000, create_time := some 1000 }

/-! ### Alert engine, `socket_handlers.rs` lines 567-625 and
`alert_handler.rs` lines 86-144 (identical logic) -/

/-- `socket_handlers.rs` line 32. -/
def ALERT_COOLDOWN_MS : Int := 60000

/-- `socket_handlers.rs` line 33. -/
def MAX_ALERT_HISTORY : Nat := 50

/-- `types::AlertType`. -/
inductive AlertType where
  | Volume1m
  | Volume5m
  | PriceChange1m
  | PriceChange5m
  deriving DecidableEq, Repr

/-- The `type_str` match of `try_trigger_alert`. -/
def alert_type_str : AlertType → RStr
  | .Volume1m => ("volume1m").data
  | .Volume5m => ("volume5m").data
  | .PriceChange1m => ("priceChange1m").data
  | .PriceChange5m => ("priceChange5m").data

/-- `types::AlertLogEntry` without the `id` field, which is a fresh random
UUID and carries no information the claims mention. -/
structure AlertLogEntry where
  chain : RStr
  contract_address : RStr
  symbol : RStr
  message : RStr
  timestamp : Int
  alert_type : AlertType
  deriving DecidableEq, Repr

/-- The alert-relevant server state: the cooldown DashMap (association list,
insert shadows by prepending) and the bounded history deque. -/
structure AlertState where
  alert_cooldowns : List (RStr × Int)
  alert_history : List AlertLogEntry
  deriving DecidableEq, Repr

/-- The cooldown map key, `format("{}:{}:{}", chain, addr.to_lowercase(), type_str)`. -/
def cooldown_key (chain addr : RStr) (alert_type : AlertType) : RStr :=
  chain ++ (':' :: to_lowercase addr) ++ (':' :: alert_type_str alert_type)

/-- `try_trigger_alert` (`socket_handlers.rs` lines 567-625): returns the
state afterwards and whether an `alert_update` was broadcast. -/
def try_trigger_alert (st : AlertState) (chain addr symbol : RStr)
    (alert_type : AlertType) (message : RStr) (now : Int) : AlertState × Bool :=
  let key := cooldown_key chain addr alert_type
  let should_alert : Bool :=
    match st.alert_cooldowns.lookup key with
    | some last_time => decide (now - last_time > ALERT_COOLDOWN_MS)
    | none => true
  if should_alert then
    let entry : AlertLogEntry :=
      { chain := chain, contract_address := addr, symbol := symbol,
        message := message, timestamp := now, alert_type := alert_type }
    let history1 := entry :: st.alert_history
    let history2 := if history1.length > MAX_ALERT_HISTORY then history1.dropLast else history1
    ({ alert_cooldowns := (key, now) :: st.alert_cooldowns,
       alert_history := history2 }, true)
  else
    (st, false)

/-- One invocation of `try_trigger_alert` as it appears in a run of the
snapshot handler: the firing site plus the timestamp taken at that site. -/
structure AlertCall where
  chain : RStr
  addr : RStr
  symbol : RStr
  alert_type : AlertType
  message : RStr
  now : Int

/-- Run a sequence of `try_trigger_alert` invocations, collecting the
(cooldown key, timestamp) of every fired alert in order. -/
def run_alert_trace (st : AlertState) : List AlertCall → List (RStr × Int)
  | [] => []
  | c :: cs =>
    let r := try_trigger_alert st c.chain c.addr c.symbol c.alert_type c.message c.now
    (if r.2 then [(cooldown_key c.chain c.addr c.alert_type, c.now)] else [])
      ++ run_alert_trace r.1 cs

/-- Timestamps of the fired alerts for one cooldown key, from the initial
(empty) alert state. -/
def fired_times (calls : List AlertCall) (key : RStr) : List Int :=
  ((run_alert_trace ⟨[], []⟩ calls).filter (fun e => e.1 == key)).map (fun e => e.2)

/-- The cooldown key of the C8 boundary scenario. -/
def c8_key : RStr := cooldown_key ("bsc").data ("0xA").data .Volume1m

/-! ### Historical candle service, `kline_handler.rs` -/

/-- `kline_handler.rs` line 22. -/
def MAX_KLINES : Int := 500

/-- Rust `str::parse::<i64>().unwrap_or(0)` on a string of decimal digits
(the only shape reaching it here); the empty string fails and yields 0.
i64 overflow is not modelled, the parsed values are interval counts. -/
def parse_i64 (s : RStr) : Int :=
  if s.isEmpty then 0
  else s.foldl (fun acc c => acc * 10 + ((c.toNat : Int) - 48)) 0

/-- `interval_to_ms` (`kline_handler.rs` lines 530-535). -/
def interval_to_ms (i : RStr) : Int :=
  let v := i.takeWhile Char.isDigit
  let u := i.dropWhile Char.isDigit
  let val := parse_i64 v
  if u = ("m").data then val * 60000
  else if u = ("h").data then val * 3600000
  else if u = ("d").data then val * 86400000
  else 0

/-- HashMap insert keyed by candle time: replaces any entry with the same
timestamp (model of the `data_map` built in `fill_kline_gaps`). -/
def map_insert (m : List KlineTick) (k : KlineTick) : List KlineTick :=
  m.filter (fun e => e.time != k.time) ++ [k]

/-- The timestamp-to-candle map of `fill_kline_gaps` line 479-482. -/
def build_time_map (raw : List KlineTick) : List KlineTick :=
  raw.foldl map_insert []

/-- HashMap `get` by timestamp. -/
def map_lookup (m : List KlineTick) (ts : Int) : Option KlineTick :=
  m.find? (fun e => e.time == ts)

/-- Stable ascending insertion by time, building `sort_by_key(|k| k.time)`. -/
def sorted_insert (k : KlineTick) : List KlineTick → List KlineTick
  | [] => [k]
  | x :: xs => if k.time < x.time then k :: x :: xs else x :: sorted_insert k xs

/-- `sorted_real_data` of `fill_kline_gaps` lines 490-491. -/
def sort_by_time (l : List KlineTick) : List KlineTick :=
  l.foldr sorted_insert []

/-- The seed for the running `last_close` (`fill_kline_gaps` lines 485-498):
the midpoint of the second-newest real candle when at least two exist,
otherwise the close of the only candle, otherwise the initial 0.0. -/
def initial_last_close (sorted_real_data : List KlineTick) : ℚ :=
  match sorted_real_data.reverse with
  | _latest :: second_latest :: _ => (second_latest.open_ + second_latest.close) / 2
  | [only] => only.close
  | [] => 0

/-- The generation loop of `fill_kline_gaps` lines 500-522: for each of `n`
slots starting at `curr` and advancing by `interval_ms`, emit the real
candle when the map has one (updating the running `last_close` to its
close), otherwise a zero-volume flat candle at the running `last_close`. -/
def fill_loop (m : List KlineTick) (interval_ms : Int) :
    Int → ℚ → Nat → List KlineTick
  | _, _, 0 => []
  | curr, last_close, n + 1 =>
    match map_lookup m curr with
    | some existing =>
      existing :: fill_loop m interval_ms (curr + interval_ms) existing.close n
    | none =>
      { time := curr, open_ := last_close, high := last_close, low := last_close,
        close := last_close, volume := 0 } ::
        fill_loop m interval_ms (curr + interval_ms) last_close n

/-- `fill_kline_gaps` (`kline_handler.rs` lines 458-525).  `now_ts` stands
for `Utc::now().timestamp_millis()`.  An empty cache returns the empty
list; a zero interval returns the input unchanged; otherwise the window of
`target_count` slots ends at the interval bucket of `now_ts`. -/
def fill_kline_gaps (now_ts : Int) (raw_data : List KlineTick)
    (interval_str : RStr) (target_count : Nat) : List KlineTick :=
  if raw_data.isEmpty then [] else
  let interval_ms := interval_to_ms interval_str
  if interval_ms = 0 then raw_data else
  let aligned_end_ts := Int.tdiv now_ts interval_ms * interval_ms
  let start_ts := aligned_end_ts - interval_ms * ((target_count : Int) - 1)
  let data_map := build_time_map raw_data
  fill_loop data_map interval_ms start_ts
    (initial_last_close (sort_by_time data_map)) target_count

/-- The timestamp of slot `i` of the 500-slot gap-fill window. -/
def fkg_slot_time (now_ts : Int) (interval_str : RStr) (i : Nat) : Int :=
  Int.tdiv now_ts (interval_to_ms interval_str) * interval_to_ms interval_str
    - interval_to_ms interval_str * 499 + interval_to_ms interval_str * i

/-- A single real cached candle used by the C4 witness. -/
def c4_candle : KlineTick := ⟨60000, 1, 1, 1, 1, 5⟩

/-- The refetch-limit computation of `complete_kline_data`
(`kline_handler.rs` lines 132-154): given the cached last candle timestamp
(none when the cache is empty), the current time and the interval length in
milliseconds, returns whether the cache is erased and the HTTP `limit`.
Rust `i64` division truncates toward zero, hence `Int.tdiv`. -/
def compute_refetch_limit (last_kline_time : Option Int)
    (now_ts interval_ms : Int) : Bool × Int :=
  match last_kline_time with
  | some last_ts =>
    let diff_ms := now_ts - last_ts
    let missing_count := Int.tdiv diff_ms interval_ms + 1
    if missing_count > MAX_KLINES then (true, MAX_KLINES)
    else (false, min (max missing_count 2) MAX_KLINES)
  | none => (false, MAX_KLINES)

/-- Modelled from the spec sentence for C5, word for word: `missing =
ceil((now_ms − last_ts)/interval_ms) + 1`; if `missing > 500` erase and
refetch 500, else `limit = clamp(missing, 2, 500)`; with no cached rows the
limit is 500.  The ceiling is total via negated floor division. -/
def refetch_limit_spec_ceil (last_kline_time : Option Int)
    (now_ms interval_ms : Int) : Bool × Int :=
  match last_kline_time with
  | some last_ts =>
    let missing := -((-(now_ms - last_ts)) / interval_ms) + 1
    if missing > 500 then (true, 500) else (false, max 2 (min missing 500))
  | none => (false, 500)

/-- The spec sentence for C5 with the ceiling corrected to the floor the
code computes; `/` on `ℤ` is floor division for a positive divisor. -/
def refetch_limit_spec_floor (last_kline_time : Option Int)
    (now_ms interval_ms : Int) : Bool × Int :=
  match last_kline_time with
  | some last_ts =>
    let missing := (now_ms - last_ts) / interval_ms + 1
    if missing > 500 then (true, 500) else (false, max 2 (min missing 500))
  | none => (false, 500)

/-! ### HTTP client pool, `client_pool.rs` -/

/-- A reqwest client, observable through its configured proxy: `none` is a
direct client, `some url` a client routed through `url`. -/
structure HttpClient where
  proxy_url : Option RStr
  deriving DecidableEq, Repr

/-- The dead-end proxy address of `build_safe_fallback`
(`client_pool.rs` line 99). -/
def BROKEN_PROXY_URL : RStr := ("http://0.0.0.0:1").data

/-- `build_safe_fallback` (`client_pool.rs` lines 96-108).
`fallback_build_ok` models whether `Client::builder().proxy(..).build()`
succeeds for the blackhole proxy; on failure the source falls back to
`Client::new()`, a direct client. -/
def build_safe_fallback (proxy_url : Option RStr) (fallback_build_ok : Bool) :
    HttpClient :=
  match proxy_url with
  | some _ => if fallback_build_ok then ⟨some BROKEN_PROXY_URL⟩ else ⟨none⟩
  | none => ⟨none⟩

/-- `build_and_warm_client` (`client_pool.rs` lines 111-160): up to three
build attempts (`build_ok i` models attempt `i` of `builder.build()`),
`proxy_parse_ok` models `Proxy::all(url)`; any parse failure or exhaustion
of the attempts yields the safe fallback.  The HTTP warm-up check was
removed in the source, so a successful build returns a client configured
with the pool proxy. -/
def build_and_warm_client (proxy_url : Option RStr) (proxy_parse_ok : Bool)
    (build_ok : Nat → Bool) (fallback_build_ok : Bool) : HttpClient :=
  if proxy_url.isSome && !proxy_parse_ok then
    build_safe_fallback proxy_url fallback_build_ok
  else if build_ok 1 then ⟨proxy_url⟩
  else if build_ok 2 then ⟨proxy_url⟩
  else if build_ok 3 then ⟨proxy_url⟩
  else build_safe_fallback proxy_url fallback_build_ok

/-- `ClientPool::new` (`client_pool.rs` lines 25-63): one concurrent build
task per slot; a task that fails to join (`spawn_ok i = false`) is replaced
by the safe fallback.  The pool is the resulting client vector. -/
def ClientPool_new (size : Nat) (proxy_url : Option RStr)
    (spawn_ok : Nat → Bool) (proxy_parse_ok : Bool)
    (build_ok : Nat → Nat → Bool) (fallback_build_ok : Bool) : List HttpClient :=
  (List.range size).map fun i =>
    if spawn_ok i then
      build_and_warm_client proxy_url proxy_parse_ok (build_ok i) fallback_build_ok
    else build_safe_fallback proxy_url fallback_build_ok

/-- `ClientPool::recycle_client` (`client_pool.rs` lines 77-91): the freshly
built client replaces the slot in place. -/
def recycle_client (clients : List HttpClient) (index : Nat)
    (new_client : HttpClient) : List HttpClient :=
  clients.set index new_client

/-! ### Helper lemmas -/

theorem char_toNat_ofNat_of_lt (n : Nat) (h : n < 0xd800) :
    (Char.ofNat n).toNat = n := by
  rw [Char.ofNat, dif_pos (Or.inl h)]
  rfl

theorem char_toLower_idem (c : Char) :
    Char.toLower (Char.toLower c) = Char.toLower c := by
  unfold Char.toLower
  by_cases h : Char.toNat c ≥ 65 ∧ Char.toNat c ≤ 90
  · rw [if_pos h]
    have hv : (Char.ofNat (Char.toNat c + 32)).toNat = Char.toNat c + 32 :=
      char_toNat_ofNat_of_lt _ (by omega)
    rw [if_neg]
    rw [hv]
    omega
  · rw [if_neg h, if_neg h]

theorem to_lowercase_idem (s : RStr) :
    to_lowercase (to_lowercase s) = to_lowercase s := by
  unfold to_lowercase
  rw [List.map_map]
  apply List.map_congr_left
  intro c _
  exact char_toLower_idem c

/-- The spike-filter condition of the code coincides, over exact rationals,
with the condition written in the spec.  Shared by the C1 and C2 proofs. -/
theorem ratio_filter_iff (p c : ℚ) :
    (c > 0 ∧ (if p > c then p / c else c / p) > 2) ↔ max p c / min p c > 2 := by
  rcases lt_trichotomy c 0 with hc | hc | hc
  · -- c < 0: both sides are false
    constructor
    · rintro ⟨h0, -⟩
      exact absurd h0 (not_lt.mpr hc.le)
    · intro h
      exfalso
      rcases le_total p c with hpc | hpc
      · -- p ≤ c < 0: max = c, min = p, and c / p ∈ [0, 1]
        rw [max_eq_right hpc, min_eq_left hpc] at h
        have hp : p < 0 := lt_of_le_of_lt hpc hc
        rw [gt_iff_lt, ← not_le] at h
        exact h (by rw [div_le_iff_of_neg hp]; nlinarith)
      · -- c ≤ p: max = p, min = c < 0
        rw [max_eq_left hpc, min_eq_right hpc] at h
        rw [gt_iff_lt, ← not_le] at h
        exact h (by rw [div_le_iff_of_neg hc]; nlinarith)
  · -- c = 0: both sides are false (division by zero is zero in ℚ)
    subst hc
    constructor
    · rintro ⟨h0, -⟩
      exact absurd h0 (lt_irrefl 0)
    · intro h
      exfalso
      rcases le_total p 0 with hp | hp
      · rw [max_eq_right hp, min_eq_left hp, zero_div] at h
        exact absurd h (by norm_num)
      · rw [max_eq_left hp, min_eq_right hp, div_zero] at h
        exact absurd h (by norm_num)
  · -- c > 0
    by_cases hpc : c < p
    · rw [if_pos hpc, max_eq_left hpc.le, min_eq_right hpc.le]
      exact ⟨fun h => h.2, fun h => ⟨hc, h⟩⟩
    · push_neg at hpc
      rw [if_neg (not_lt.mpr hpc), max_eq_right hpc, min_eq_left hpc]
      exact ⟨fun h => h.2, fun h => ⟨hc, h⟩⟩

/-! ### Claims C1, C2, C10 -/

/-- Claim C1: for a room whose current candle `k` exists, a tick with price
`p` and USD volume `v` is dropped for that room, leaving the candle unchanged
and broadcasting nothing, exactly when
`max(p, k.close) / min(p, k.close) > 2` and `v < 10`. -/
theorem spike_filter_drop_iff (p v : ℚ) (k : KlineTick) :
    apply_tick_to_room p v k = (k, false) ↔
      max p k.close / min p k.close > 2 ∧ v < 10 := by
  unfold apply_tick_to_room
  simp only [LOW_VOLUME_PRICE_DEVIATION_THRESHOLD, LOW_VOLUME_THRESHOLD]
  by_cases hcond : k.close > 0 ∧ (if p > k.close then p / k.close else k.close / p) > 2 ∧ v < 10
  · rw [if_pos hcond]
    have : max p k.close / min p k.close > 2 :=
      (ratio_filter_iff p k.close).mp ⟨hcond.1, hcond.2.1⟩
    simp [this, hcond.2.2]
  · rw [if_neg hcond]
    constructor
    · intro h
      have := congrArg Prod.snd h
      simp at this
    · rintro ⟨hratio, hv⟩
      exact absurd ⟨((ratio_filter_iff p k.close).mpr hratio).1,
        ((ratio_filter_iff p k.close).mpr hratio).2, hv⟩ hcond

/-- Claim C2: a tick that passes the spike filter updates the room candle to
`high = max(high, p)`, `low = min(low, p)`, `close = p`, leaves `time`,
`open` and `volume` unchanged, and broadcasts a `kline_update`. -/
theorem tick_merge_updates_candle (p v : ℚ) (k : KlineTick)
    (hpass : ¬(max p k.close / min p k.close > 2 ∧ v < 10)) :
    apply_tick_to_room p v k =
      ({ time := k.time, open_ := k.open_, high := max k.high p,
         low := min k.low p, close := p, volume := k.volume }, true) := by
  unfold apply_tick_to_room
  rw [if_neg]
  intro hcond
  exact hpass ⟨(ratio_filter_iff p k.close).mp ⟨hcond.1, hcond.2.1⟩, hcond.2.2⟩

/-- Witness for C2 at a concrete passing tick. -/
theorem tick_merge_updates_candle_witness :
    apply_tick_to_room (5/4) 500 ⟨0, 1, 6/5, 9/10, 1, 7⟩ =
      (⟨0, 1, max (6/5) (5/4), min (9/10) (5/4), 5/4, 7⟩, true) :=
  tick_merge_updates_candle (5/4) 500 ⟨0, 1, 6/5, 9/10, 1, 7⟩ (by norm_num)

/-- Claim C10: `normalize_address` is idempotent in its address argument; for
pool ids other than 16 it lowercases the address and for pool id 16 it
returns the address unchanged. -/
theorem normalize_address_idem (pool_id : Int) (address : RStr) :
    normalize_address pool_id (normalize_address pool_id address) =
        normalize_address pool_id address ∧
      (pool_id = 16 → normalize_address pool_id address = address) ∧
      (pool_id ≠ 16 → normalize_address pool_id address = to_lowercase address) := by
  unfold normalize_address
  by_cases h : pool_id = 16
  · simp [h]
  · simp [h, to_lowercase_idem]

/-- Witness for C10 at pool ids 14 and 16 on a mixed-case address. -/
theorem normalize_address_idem_witness :
    normalize_address 14 ('0' :: 'x' :: 'A' :: 'b' :: []) =
        to_lowercase ('0' :: 'x' :: 'A' :: 'b' :: []) ∧
      normalize_address 16 ('0' :: 'x' :: 'A' :: 'b' :: []) =
        ('0' :: 'x' :: 'A' :: 'b' :: []) :=
  ⟨(normalize_address_idem 14 _).2.2 (by decide),
   (normalize_address_idem 16 _).2.1 rfl⟩

theorem try_trigger_fired_iff (st : AlertState) (chain addr symbol : RStr)
    (ty : AlertType) (msg : RStr) (now : Int) :
    (try_trigger_alert st chain addr symbol ty msg now).2 = true ↔
      (st.alert_cooldowns.lookup (cooldown_key chain addr ty) = none ∨
        ∃ last, st.alert_cooldowns.lookup (cooldown_key chain addr ty) = some last ∧
          now - last > ALERT_COOLDOWN_MS) := by
  unfold try_trigger_alert
  cases hl : st.alert_cooldowns.lookup (cooldown_key chain addr ty) with
  | none => simp [hl]
  | some last =>
    by_cases hlt : now - last > ALERT_COOLDOWN_MS <;> simp [hl, hlt]

theorem try_trigger_not_fired_state (st : AlertState) (chain addr symbol : RStr)
    (ty : AlertType) (msg : RStr) (now : Int)
    (h : (try_trigger_alert st chain addr symbol ty msg now).2 = false) :
    (try_trigger_alert st chain addr symbol ty msg now).1 = st := by
  unfold try_trigger_alert at h ⊢
  cases hl : st.alert_cooldowns.lookup (cooldown_key chain addr ty) with
  | none => simp [hl] at h
  | some last =>
    by_cases hlt : now - last > ALERT_COOLDOWN_MS
    · simp [hl, hlt] at h
    · simp [hl, hlt]

theorem history_push_head (e : AlertLogEntry) (h : List AlertLogEntry) :
    ∃ rest, (if (e :: h).length > MAX_ALERT_HISTORY
      then (e :: h).dropLast else (e :: h)) = e :: rest := by
  by_cases hlen : (e :: h).length > MAX_ALERT_HISTORY
  · rw [if_pos hlen]
    cases h with
    | nil => simp [MAX_ALERT_HISTORY] at hlen
    | cons y l => exact ⟨(y :: l).dropLast, rfl⟩
  · exact ⟨h, if_neg hlen⟩

theorem try_trigger_fired_updates (st : AlertState) (chain addr symbol : RStr)
    (ty : AlertType) (msg : RStr) (now : Int)
    (h : (try_trigger_alert st chain addr symbol ty msg now).2 = true) :
    (try_trigger_alert st chain addr symbol ty msg now).1.alert_cooldowns =
        (cooldown_key chain addr ty, now) :: st.alert_cooldowns ∧
      ∃ rest, (try_trigger_alert st chain addr symbol ty msg now).1.alert_history =
        { chain := chain, contract_address := addr, symbol := symbol,
          message := msg, timestamp := now, alert_type := ty } :: rest := by
  unfold try_trigger_alert at h ⊢
  cases hl : st.alert_cooldowns.lookup (cooldown_key chain addr ty) with
  | none => exact ⟨by simp [hl], by simpa [hl] using history_push_head _ _⟩
  | some last =>
    by_cases hlt : now - last > ALERT_COOLDOWN_MS
    · exact ⟨by simp [hl, hlt], by simpa [hl, hlt] using history_push_head _ _⟩
    · simp [hl, hlt] at h

/-- The cooldown-chain invariant for a run of alert firings: with `R a b`
meaning the timestamps are at least the cooldown apart, the fire times for
one key form an `R`-chain, prefixed by the recorded cooldown when one
exists. -/
theorem alert_trace_chain (key : RStr) (calls : List AlertCall) :
    ∀ st : AlertState,
      List.Chain' (fun a b => ALERT_COOLDOWN_MS ≤ b - a)
        ((match st.alert_cooldowns.lookup key with
          | some t => [t]
          | none => []) ++
          ((run_alert_trace st calls).filter (fun e => e.1 == key)).map
            (fun e => e.2)) := by
  induction calls with
  | nil =>
    intro st
    cases hl : st.alert_cooldowns.lookup key <;> simp [run_alert_trace, hl]
  | cons c cs ih =>
    intro st
    cases hfired : (try_trigger_alert st c.chain c.addr c.symbol c.alert_type c.message c.now).2 with
    | false =>
      have hst :
          (try_trigger_alert st c.chain c.addr c.symbol c.alert_type c.message c.now).1 = st :=
        try_trigger_not_fired_state _ _ _ _ _ _ _ hfired
      have := ih st
      simp only [run_alert_trace, hfired, hst, if_neg, Bool.false_eq_true,
        not_false_eq_true, List.nil_append]
      exact this
    | true =>
      obtain ⟨hcool, -⟩ :=
        try_trigger_fired_updates st c.chain c.addr c.symbol c.alert_type c.message c.now hfired
      have ihr := ih (try_trigger_alert st c.chain c.addr c.symbol c.alert_type c.message c.now).1
      by_cases hk : (cooldown_key c.chain c.addr c.alert_type == key) = true
      · -- the fired event belongs to the observed key
        have hkey : cooldown_key c.chain c.addr c.alert_type = key := eq_of_beq hk
        have hlook :
            (try_trigger_alert st c.chain c.addr c.symbol c.alert_type c.message c.now).1.alert_cooldowns.lookup key =
              some c.now := by
          rw [hcool, hkey]
          simp [List.lookup]
        rw [hlook] at ihr
        simp only [run_alert_trace, hfired, if_pos, List.filter_append,
          List.map_append, List.filter_cons, hk, List.filter_nil, List.map_cons,
          List.map_nil, List.singleton_append, List.cons_append] at ihr ⊢
        cases hl : st.alert_cooldowns.lookup key with
        | none => simpa using ihr
        | some t =>
          have hgap : ALERT_COOLDOWN_MS ≤ c.now - t := by
            have := (try_trigger_fired_iff st c.chain c.addr c.symbol
              c.alert_type c.message c.now).mp hfired
            rw [hkey] at this
            rcases this with hnone | ⟨last, hsome, hlt⟩
            · rw [hl] at hnone
              exact absurd hnone (by simp)
            · rw [hl] at hsome
              injection hsome with hlast
              subst hlast
              exact le_of_lt hlt
          simp only [List.cons_append, List.nil_append] at ihr ⊢
          exact List.chain'_cons.mpr ⟨hgap, by simpa using ihr⟩
      · -- fired for a different key: invisible in the filtered trace
        have hlook :
            (try_trigger_alert st c.chain c.addr c.symbol c.alert_type c.message c.now).1.alert_cooldowns.lookup key =
              st.alert_cooldowns.lookup key := by
          rw [hcool]
          have hne : cooldown_key c.chain c.addr c.alert_type ≠ key := by
            simpa using hk
          have hbeq : (key == cooldown_key c.chain c.addr c.alert_type) = false :=
            beq_eq_false_iff_ne.mpr (Ne.symm hne)
          simp only [List.lookup]
          rw [hbeq]
        rw [hlook] at ihr
        simp only [run_alert_trace, hfired, if_pos, List.filter_append,
          List.map_append, List.filter_cons, hk, List.filter_nil, List.map_nil,
          List.nil_append] at ihr ⊢
        exact ihr

/-- Claim C3: subscribing then unsubscribing the same (address, interval)
should return the worker active-interval set to empty and let the worker
exit.  In the source the unsubscribe arm splits the kline stream on the
underscore character while streams are `'@'`-separated, so the interval is
never removed: after subscribe then unsubscribe of `kl@14@0xabc@1m` the
active set still holds `1m`, no UNSUBSCRIBE frame is sent upstream, and the
worker does not exit.  This contradicts the subscribe arm, the stream
grammar, and the spec. -/
theorem worker_sub_unsub_not_inverse :
    c3_after_sub.1 = ⟨[("1m").data], false⟩ ∧
      c3_after_unsub.1 = ⟨[("1m").data], false⟩ ∧
      c3_after_unsub.2.1 = [] ∧
      c3_after_unsub.2.2 = false := by
  decide

/-- Claim C6: at lazy-unsubscribe timer fire for a case-sensitive Solana
address whose room set is empty, the claim requires the tick Unsubscribe
command to be sent and the index key removed.  The source lowercases the
address before the index and worker lookups, so for `Abc` no worker is
found (no command sent) and the real index key survives. -/
theorem lazy_unsubscribe_fire_case_mismatch :
    c6_fire.1 = false ∧ c6_fire.2 = [(c6_address, [])] := by
  decide

/-- Claim C7, counterexample: this item satisfies `volume24h * price ≥
MIN_HOTLIST_AMOUNT`, yet the re-broadcast payload drops it because the
source also requires `now - create_time` to be at least an hour: a second
condition the claim denies exists. -/
theorem hotlist_filter_extra_condition :
    hotlist_filter 1000 [c7_item] = [] ∧
      c7_item.volume24h.getD 0 * c7_item.price.getD 0 ≥ MIN_HOTLIST_AMOUNT := by
  constructor
  · norm_num [hotlist_filter, hotlist_retain, c7_item, MIN_HOTLIST_AMOUNT,
      List.filter]
  · norm_num [c7_item, MIN_HOTLIST_AMOUNT]

/-- Claim C7 as amended: an inbound hotlist item is retained iff
`volume24h * price` (absent fields read as 0) is at least
`MIN_HOTLIST_AMOUNT` and, when `create_time` is present, the item is at
least 3 600 000 ms old at filter time. -/
theorem hotlist_filter_mem_iff (now : Int) (data : List HotlistItem) (item : HotlistItem) :
    item ∈ hotlist_filter now data ↔
      item ∈ data ∧ item.volume24h.getD 0 * item.price.getD 0 ≥ MIN_HOTLIST_AMOUNT ∧
        ∀ ct, item.create_time = some ct → now - ct ≥ 60 * 60 * 1000 := by
  unfold hotlist_filter
  rw [List.mem_filter]
  unfold hotlist_retain
  cases hct : item.create_time <;> simp [hct, and_assoc]

/-- Claim C8, counterexample: with exactly `ALERT_COOLDOWN_MS` elapsed since
the last fired alert for the key, the claim (suppress only when strictly
less than the cooldown has elapsed) demands a broadcast, but the source
suppresses, because it fires only when strictly more than the cooldown has
elapsed. -/
theorem alert_cooldown_boundary :
    (try_trigger_alert ⟨[(c8_key, 0)], []⟩ ("bsc").data ("0xA").data ("S").data
        .Volume1m ("m").data 60000).2 = false ∧
      ¬(60000 - 0 < ALERT_COOLDOWN_MS) := by
  decide

/-- Claim C8 as amended: a firing is suppressed exactly when at most
`ALERT_COOLDOWN_MS` (60 000 ms) has elapsed since the last fired alert for
the key (chain, lowercased address, type); otherwise it records the new
cooldown timestamp, pushes the entry onto the history, and broadcasts; and
in any run the fired alerts for one key are pairwise at least
`ALERT_COOLDOWN_MS` apart. -/
theorem alert_cooldown_behaviour :
    (∀ st chain addr symbol ty msg now,
        (try_trigger_alert st chain addr symbol ty msg now).2 = false ↔
          ∃ last, st.alert_cooldowns.lookup (cooldown_key chain addr ty) = some last ∧
            now - last ≤ ALERT_COOLDOWN_MS) ∧
    (∀ st chain addr symbol ty msg now,
        (try_trigger_alert st chain addr symbol ty msg now).2 = true →
          (try_trigger_alert st chain addr symbol ty msg now).1.alert_cooldowns.lookup
              (cooldown_key chain addr ty) = some now ∧
            ∃ rest, (try_trigger_alert st chain addr symbol ty msg now).1.alert_history =
              { chain := chain, contract_address := addr, symbol := symbol,
                message := msg, timestamp := now, alert_type := ty } :: rest) ∧
    (∀ calls key, List.Chain' (fun a b => ALERT_COOLDOWN_MS ≤ b - a)
        (fired_times calls key)) := by
  refine ⟨?_, ?_, ?_⟩
  · intro st chain addr symbol ty msg now
    constructor
    · intro h
      have hnot : ¬(try_trigger_alert st chain addr symbol ty msg now).2 = true := by
        simp [h]
      rw [try_trigger_fired_iff] at hnot
      push_neg at hnot
      cases hl : st.alert_cooldowns.lookup (cooldown_key chain addr ty) with
      | none => exact absurd hl hnot.1
      | some last => exact ⟨last, rfl, hnot.2 last hl⟩
    · rintro ⟨last, hl, hle⟩
      cases hfired : (try_trigger_alert st chain addr symbol ty msg now).2 with
      | false => rfl
      | true =>
        rcases (try_trigger_fired_iff st chain addr symbol ty msg now).mp hfired with
          hnone | ⟨last2, hl2, hlt⟩
        · rw [hl] at hnone
          exact absurd hnone (by simp)
        · rw [hl] at hl2
          injection hl2 with he
          subst he
          exact absurd hlt (not_lt.mpr hle)
  · intro st chain addr symbol ty msg now h
    obtain ⟨hcool, hhist⟩ := try_trigger_fired_updates st chain addr symbol ty msg now h
    refine ⟨?_, hhist⟩
    rw [hcool]
    simp [List.lookup]
  · intro calls key
    have := alert_trace_chain key calls ⟨[], []⟩
    simpa [fired_times, List.lookup] using this

/-- Witness for the amended C8 theorem at a concrete suppressed call and a
concrete fired call. -/
theorem alert_cooldown_behaviour_witness :
    ((try_trigger_alert ⟨[(c8_key, 0)], []⟩ ("bsc").data ("0xA").data ("S").data
        .Volume1m ("m").data 30000).2 = false ↔
      ∃ last, (AlertState.mk [(c8_key, 0)] []).alert_cooldowns.lookup
          (cooldown_key ("bsc").data ("0xA").data .Volume1m) = some last ∧
        30000 - last ≤ ALERT_COOLDOWN_MS) ∧
    (try_trigger_alert ⟨[], []⟩ ("bsc").data ("0xA").data ("S").data
        .Volume1m ("m").data 70000).1.alert_cooldowns.lookup
        (cooldown_key ("bsc").data ("0xA").data .Volume1m) = some 70000 :=
  ⟨alert_cooldown_behaviour.1 ⟨[(c8_key, 0)], []⟩ _ _ _ _ _ _,
   (alert_cooldown_behaviour.2.1 ⟨[], []⟩ ("bsc").data ("0xA").data ("S").data
      .Volume1m ("m").data 70000 (by decide)).1⟩

theorem map_lookup_time (m : List KlineTick) (ts : Int) (k : KlineTick)
    (h : map_lookup m ts = some k) : k.time = ts := by
  have := List.find?_some h
  simpa using this

theorem fill_loop_length (m : List KlineTick) (I : Int) :
    ∀ (n : Nat) (curr : Int) (lc : ℚ), (fill_loop m I curr lc n).length = n := by
  intro n
  induction n with
  | zero => intro curr lc; rfl
  | succ n ih =>
    intro curr lc
    cases h : map_lookup m curr <;> simp [fill_loop, h, ih]

theorem fill_loop_time (m : List KlineTick) (I : Int) :
    ∀ (n : Nat) (curr : Int) (lc : ℚ) (i : Nat), i < n →
      ((fill_loop m I curr lc n).getD i default).time = curr + I * i := by
  intro n
  induction n with
  | zero => intro curr lc i hi; exact absurd hi (Nat.not_lt_zero i)
  | succ n ih =>
    intro curr lc i hi
    cases i with
    | zero =>
      cases h : map_lookup m curr with
      | some k => simp [fill_loop, h, map_lookup_time m curr k h]
      | none => simp [fill_loop, h]
    | succ j =>
      have hj : j < n := Nat.lt_of_succ_lt_succ hi
      cases h : map_lookup m curr with
      | some k =>
        have hrec := ih (curr + I) k.close j hj
        simp only [fill_loop, h, List.getD_cons_succ]
        rw [hrec]
        push_cast
        ring
      | none =>
        have hrec := ih (curr + I) lc j hj
        simp only [fill_loop, h, List.getD_cons_succ]
        rw [hrec]
        push_cast
        ring

theorem fill_loop_real (m : List KlineTick) (I : Int) :
    ∀ (n : Nat) (curr : Int) (lc : ℚ) (i : Nat), i < n →
      ∀ k, map_lookup m (curr + I * i) = some k →
        (fill_loop m I curr lc n).getD i default = k := by
  intro n
  induction n with
  | zero => intro curr lc i hi; exact absurd hi (Nat.not_lt_zero i)
  | succ n ih =>
    intro curr lc i hi k hk
    cases i with
    | zero =>
      simp only [Nat.cast_zero, mul_zero, add_zero] at hk
      simp [fill_loop, hk]
    | succ j =>
      have hj : j < n := Nat.lt_of_succ_lt_succ hi
      have harg : curr + I * ((j + 1 : Nat) : Int) = (curr + I) + I * j := by
        push_cast
        ring
      rw [harg] at hk
      cases h : map_lookup m curr with
      | some k2 =>
        simp only [fill_loop, h, List.getD_cons_succ]
        exact ih (curr + I) k2.close j hj k hk
      | none =>
        simp only [fill_loop, h, List.getD_cons_succ]
        exact ih (curr + I) lc j hj k hk

theorem fill_loop_synth (m : List KlineTick) (I : Int) :
    ∀ (n : Nat) (curr : Int) (lc : ℚ) (i : Nat), i < n →
      map_lookup m (curr + I * i) = none →
      ((fill_loop m I curr lc n).getD i default).volume = 0 ∧
        ((fill_loop m I curr lc n).getD i default).open_ =
          ((fill_loop m I curr lc n).getD i default).close ∧
        ((fill_loop m I curr lc n).getD i default).high =
          ((fill_loop m I curr lc n).getD i default).close ∧
        ((fill_loop m I curr lc n).getD i default).low =
          ((fill_loop m I curr lc n).getD i default).close ∧
        ((fill_loop m I curr lc n).getD i default).close =
          (if i = 0 then lc
            else ((fill_loop m I curr lc n).getD (i - 1) default).close) := by
  intro n
  induction n with
  | zero => intro curr lc i hi; exact absurd hi (Nat.not_lt_zero i)
  | succ n ih =>
    intro curr lc i hi hnone
    cases hcur : map_lookup m curr with
    | some k =>
      cases i with
      | zero =>
        exfalso
        simp only [Nat.cast_zero, mul_zero, add_zero] at hnone
        rw [hcur] at hnone
        exact Option.noConfusion hnone
      | succ j =>
        have hj : j < n := Nat.lt_of_succ_lt_succ hi
        have harg : curr + I * ((j + 1 : Nat) : Int) = (curr + I) + I * j := by
          push_cast
          ring
        rw [harg] at hnone
        have IH := ih (curr + I) k.close j hj hnone
        simp only [fill_loop, hcur, List.getD_cons_succ, Nat.succ_ne_zero,
          if_false, Nat.succ_sub_one]
        refine ⟨IH.1, IH.2.1, IH.2.2.1, IH.2.2.2.1, ?_⟩
        cases j with
        | zero => simpa using IH.2.2.2.2
        | succ j2 => simpa [List.getD_cons_succ] using IH.2.2.2.2
    | none =>
      cases i with
      | zero => simp [fill_loop, hcur]
      | succ j =>
        have hj : j < n := Nat.lt_of_succ_lt_succ hi
        have harg : curr + I * ((j + 1 : Nat) : Int) = (curr + I) + I * j := by
          push_cast
          ring
        rw [harg] at hnone
        have IH := ih (curr + I) lc j hj hnone
        simp only [fill_loop, hcur, List.getD_cons_succ, Nat.succ_ne_zero,
          if_false, Nat.succ_sub_one]
        refine ⟨IH.1, IH.2.1, IH.2.2.1, IH.2.2.2.1, ?_⟩
        cases j with
        | zero => simpa using IH.2.2.2.2
        | succ j2 => simpa [List.getD_cons_succ] using IH.2.2.2.2

/-- Claim C4, counterexample: on the empty cached-candle list the gap fill
returns the empty list, not 500 synthesized candles. -/
theorem fill_kline_gaps_empty_input :
    fill_kline_gaps 1700000000000 [] (("1m").data) 500 = [] := by
  rfl

/-- Claim C4 as amended: for a NON-empty cached list and an interval of
positive length, the gap fill returns exactly 500 candles; the last one
sits at `floor(now / interval) * interval`; every slot with a real cached
candle carries that candle; every missing slot is a zero-volume flat
candle whose price is the running `last_close`, that is, the close of the
preceding output candle (the seed for slot 0). -/
theorem fill_kline_gaps_window (now_ts : Int) (raw : List KlineTick)
    (interval_str : RStr) (hraw : raw ≠ []) (hI : 0 < interval_to_ms interval_str)
    (hnow : 0 ≤ now_ts) :
    (fill_kline_gaps now_ts raw interval_str 500).length = 500 ∧
      ((fill_kline_gaps now_ts raw interval_str 500).getD 499 default).time =
        now_ts / interval_to_ms interval_str * interval_to_ms interval_str ∧
      (∀ i, i < 500 → ∀ k,
        map_lookup (build_time_map raw) (fkg_slot_time now_ts interval_str i) = some k →
          (fill_kline_gaps now_ts raw interval_str 500).getD i default = k) ∧
      (∀ i, i < 500 →
        map_lookup (build_time_map raw) (fkg_slot_time now_ts interval_str i) = none →
          ((fill_kline_gaps now_ts raw interval_str 500).getD i default).volume = 0 ∧
            ((fill_kline_gaps now_ts raw interval_str 500).getD i default).open_ =
              ((fill_kline_gaps now_ts raw interval_str 500).getD i default).close ∧
            ((fill_kline_gaps now_ts raw interval_str 500).getD i default).high =
              ((fill_kline_gaps now_ts raw interval_str 500).getD i default).close ∧
            ((fill_kline_gaps now_ts raw interval_str 500).getD i default).low =
              ((fill_kline_gaps now_ts raw interval_str 500).getD i default).close ∧
            (0 < i →
              ((fill_kline_gaps now_ts raw interval_str 500).getD i default).close =
                ((fill_kline_gaps now_ts raw interval_str 500).getD (i - 1) default).close)) := by
  have hne : ¬raw.isEmpty = true := by
    cases raw with
    | nil => exact absurd rfl hraw
    | cons a l => simp
  have hz : ¬interval_to_ms interval_str = 0 := ne_of_gt hI
  have hunf : fill_kline_gaps now_ts raw interval_str 500 =
      fill_loop (build_time_map raw) (interval_to_ms interval_str)
        (Int.tdiv now_ts (interval_to_ms interval_str) * interval_to_ms interval_str
          - interval_to_ms interval_str * ((500 : Int) - 1))
        (initial_last_close (sort_by_time (build_time_map raw))) 500 := by
    unfold fill_kline_gaps
    rw [if_neg hne, if_neg hz]
    exact rfl
  set I := interval_to_ms interval_str with hIdef
  set m := build_time_map raw with hmdef
  set start_ts := Int.tdiv now_ts I * I - I * ((500 : Int) - 1) with hstart
  set lc0 := initial_last_close (sort_by_time m) with hlc
  have hslot : ∀ i : Nat, fkg_slot_time now_ts interval_str i = start_ts + I * i := by
    intro i
    unfold fkg_slot_time
    rw [hstart]
    ring
  refine ⟨?_, ?_, ?_, ?_⟩
  · rw [hunf]
    exact fill_loop_length m I 500 start_ts lc0
  · rw [hunf, fill_loop_time m I 500 start_ts lc0 499 (by norm_num)]
    have : Int.tdiv now_ts I = now_ts / I := Int.tdiv_eq_ediv hnow hI.le
    rw [hstart, this]
    push_cast
    ring
  · intro i hi k hk
    rw [hslot] at hk
    rw [hunf]
    exact fill_loop_real m I 500 start_ts lc0 i hi k hk
  · intro i hi hk
    rw [hslot] at hk
    have H := fill_loop_synth m I 500 start_ts lc0 i hi hk
    rw [hunf]
    refine ⟨H.1, H.2.1, H.2.2.1, H.2.2.2.1, ?_⟩
    intro hipos
    have := H.2.2.2.2
    rw [if_neg (Nat.pos_iff_ne_zero.mp hipos)] at this
    exact this

/-- Witness for the amended C4 theorem on a one-candle cache with the 1m
interval. -/
theorem fill_kline_gaps_window_witness :
    (fill_kline_gaps 120000 [c4_candle] (("1m").data) 500).length = 500 :=
  (fill_kline_gaps_window 120000 [c4_candle] (("1m").data)
    (by decide) (by decide) (by decide)).1

/-- Claim C5, counterexample: with the cached last candle at 0 ms, now at
90 000 ms and a 60 000 ms interval, the spec formula
`clamp(ceil(90000 / 60000) + 1, 2, 500) = 3` disagrees with the limit 2 the
code computes by truncating division. -/
theorem refetch_limit_not_ceil :
    compute_refetch_limit (some 0) 90000 60000 = (false, 2) ∧
      refetch_limit_spec_ceil (some 0) 90000 60000 = (false, 3) := by
  decide

/-- Claim C5 as amended: with a cached last candle and a non-negative gap,
the refetch limit follows `missing = floor((now − last)/interval) + 1`:
erase and refetch 500 when `missing > 500`, otherwise
`clamp(missing, 2, 500)`; with no cached rows the limit is 500. -/
theorem refetch_limit_matches_floor_spec (last_kline_time : Option Int)
    (now_ts interval_ms : Int) (hI : 0 < interval_ms)
    (hle : ∀ t, last_kline_time = some t → t ≤ now_ts) :
    compute_refetch_limit last_kline_time now_ts interval_ms =
      refetch_limit_spec_floor last_kline_time now_ts interval_ms := by
  cases last_kline_time with
  | none => rfl
  | some last_ts =>
    have hd : 0 ≤ now_ts - last_ts := by
      have := hle last_ts rfl
      omega
    simp only [compute_refetch_limit, refetch_limit_spec_floor]
    rw [Int.tdiv_eq_ediv hd hI.le]
    simp only [MAX_KLINES]
    set missing := (now_ts - last_ts) / interval_ms + 1 with hm
    by_cases h5 : missing > 500
    · rw [if_pos h5, if_pos h5]
    · rw [if_neg h5, if_neg h5]
      have : min (max missing 2) 500 = max 2 (min missing 500) := by
        rcases le_total missing 2 with h2 | h2 <;>
          rcases le_total missing 500 with h6 | h6 <;>
            simp [min_def, max_def] <;> omega
      rw [this]

/-- Witness for the amended C5 theorem at the counterexample input. -/
theorem refetch_limit_matches_floor_spec_witness :
    compute_refetch_limit (some 0) 90000 60000 =
      refetch_limit_spec_floor (some 0) 90000 60000 :=
  refetch_limit_matches_floor_spec (some 0) 90000 60000 (by decide)
    (by intro t h; injection h with h2; omega)

/-- Claim C9, counterexample: with a tunnel URL configured, when every
build attempt fails and the blackhole-fallback client build itself fails,
the slot is filled by `Client::new()`: a direct, un-proxied client. -/
theorem pool_fallback_can_be_direct :
    ClientPool_new 1 (some (("http://tunnel").data)) (fun _ => true) true
      (fun _ _ => false) false = [⟨none⟩] := by
  rfl

/-- Claim C9 as amended: the pool always holds exactly `size` clients (also
across recycling), and with a tunnel URL every failed slot is filled by the
safe fallback, which is the blackhole-proxied client whenever that fallback
client itself builds; every pool client is then routed through the tunnel
or through the unreachable proxy, never direct. -/
theorem pool_size_and_safe_fallback (size : Nat) (url : RStr)
    (spawn_ok : Nat → Bool) (proxy_parse_ok : Bool) (build_ok : Nat → Nat → Bool)
    (fallback_build_ok : Bool) :
    (ClientPool_new size (some url) spawn_ok proxy_parse_ok build_ok
        fallback_build_ok).length = size ∧
      (∀ (clients : List HttpClient) (index : Nat) (nc : HttpClient),
        (recycle_client clients index nc).length = clients.length) ∧
      (fallback_build_ok = true →
        ∀ c ∈ ClientPool_new size (some url) spawn_ok proxy_parse_ok build_ok
            fallback_build_ok,
          c.proxy_url = some url ∨ c.proxy_url = some BROKEN_PROXY_URL) := by
  refine ⟨?_, ?_, ?_⟩
  · unfold ClientPool_new
    rw [List.length_map, List.length_range]
  · intro clients index nc
    unfold recycle_client
    exact List.length_set clients index nc
  · intro hfb c hc
    unfold ClientPool_new at hc
    rw [List.mem_map] at hc
    obtain ⟨i, -, hci⟩ := hc
    subst hci
    subst hfb
    simp only [build_and_warm_client, build_safe_fallback]
    split_ifs <;> simp

/-- Witness for the amended C9 theorem: a one-slot proxied pool whose build
attempts all fail holds exactly the blackhole-proxied client. -/
theorem pool_size_and_safe_fallback_witness :
    (ClientPool_new 1 (some (("http://tunnel").data)) (fun _ => true) true
        (fun _ _ => false) true).length = 1 ∧
      ((HttpClient.mk (some BROKEN_PROXY_URL)).proxy_url =
          some (("http://tunnel").data) ∨
        (HttpClient.mk (some BROKEN_PROXY_URL)).proxy_url =
          some BROKEN_PROXY_URL) :=
  ⟨(pool_size_and_safe_fallback 1 (("http://tunnel").data) (fun _ => true) true
      (fun _ _ => false) true).1,
   (pool_size_and_safe_fallback 1 (("http://tunnel").data) (fun _ => true) true
      (fun _ _ => false) true).2.2 rfl ⟨some BROKEN_PROXY_URL⟩ (by decide)⟩

end BinanceWeb3
